import Mathlib

/-!
The script static/admin/js/custom_modal.js

A shallow embedding of the rejection dialog of `custom_modal.js`: the page
state the script reads and writes, its three handlers (`showRejectModal`,
the submit button's `onclick`, `window.onclick`), `sendRejectRequest` and the
`.then` callback of its `fetch`, together with the two ECMAScript built-ins
the handlers call on the reason (`String.prototype.trim` and
`encodeURIComponent`).

JavaScript strings are sequences of UTF-16 code units; they are modelled as
lists of naturals below `0x10000`. A well-formed Unicode string is a Lean
`String`, and `js` gives its code units.

The second half of the definitions is not code of the script: the
percent-encoding as the specification words it, and the
`application/x-www-form-urlencoded` parser of the URL Standard that reads
the request body on the receiving end.
-/

namespace CustomModal

/-! ## JavaScript strings -/

/-- A JavaScript string: its UTF-16 code units, in order. -/
abbrev JSString := List Nat

/-- UTF-16 code units of one Unicode code point. -/
def utf16Units (cp : Nat) : List Nat :=
  if cp < 0x10000 then [cp]
  else [0xD800 + (cp - 0x10000) / 0x400, 0xDC00 + (cp - 0x10000) % 0x400]

/-- The JavaScript string holding a sequence of Unicode scalar values
(a well-formed Unicode string). -/
def utf16 : List Char → JSString
  | [] => []
  | c :: cs => utf16Units c.toNat ++ utf16 cs

/-- A string literal of the source as a JavaScript string. -/
def js (s : String) : JSString := utf16 s.toList

/-- The error the built-ins used by the script can throw on a string:
`URIError`, from `encodeURIComponent`. -/
inductive JSError where
  | URIError
  deriving DecidableEq, Repr

/-! ## `String.prototype.trim` -/

/-- The code units `trim` strips: ECMAScript WhiteSpace (TAB, VT, FF, ZWNBSP
and the Unicode space separators) and LineTerminator (LF, CR, LS, PS). -/
def isWhiteSpaceOrLineTerminator (c : Nat) : Bool :=
  c = 0x0009 || c = 0x000B || c = 0x000C || c = 0xFEFF
  || c = 0x0020 || c = 0x00A0 || c = 0x1680
  || (0x2000 ≤ c && c ≤ 0x200A)
  || c = 0x202F || c = 0x205F || c = 0x3000
  || c = 0x000A || c = 0x000D || c = 0x2028 || c = 0x2029

/-- The function `String.prototype.trimStart`. -/
def trimStart (s : JSString) : JSString :=
  s.dropWhile isWhiteSpaceOrLineTerminator

/-- The function `String.prototype.trimEnd`. -/
def trimEnd (s : JSString) : JSString :=
  (s.reverse.dropWhile isWhiteSpaceOrLineTerminator).reverse

/-- The function `String.prototype.trim`: leading and trailing white space and
line terminators removed. -/
def trim (s : JSString) : JSString :=
  trimEnd (trimStart s)

/-! ## `encodeURIComponent` -/

/-- Code units `encodeURIComponent` leaves as they are: ASCII letters,
decimal digits and the marks `- _ . ! ~ * ' ( )`. -/
def isUnescaped (c : Nat) : Bool :=
  (0x41 ≤ c && c ≤ 0x5A) || (0x61 ≤ c && c ≤ 0x7A) || (0x30 ≤ c && c ≤ 0x39)
  || c = 0x2D || c = 0x5F || c = 0x2E || c = 0x21 || c = 0x7E
  || c = 0x2A || c = 0x27 || c = 0x28 || c = 0x29

/-- Leading (high) surrogate code unit. -/
def isLeadingSurrogate (c : Nat) : Bool := 0xD800 ≤ c && c ≤ 0xDBFF

/-- Trailing (low) surrogate code unit. -/
def isTrailingSurrogate (c : Nat) : Bool := 0xDC00 ≤ c && c ≤ 0xDFFF

/-- The code point of a surrogate pair (UTF16SurrogatePairToCodePoint). -/
def surrogatePairToCodePoint (lead trail : Nat) : Nat :=
  (lead - 0xD800) * 0x400 + (trail - 0xDC00) + 0x10000

/-- The octets of the UTF-8 encoding of a code point. -/
def utf8Octets (cp : Nat) : List Nat :=
  if cp < 0x80 then [cp]
  else if cp < 0x800 then [0xC0 + cp / 0x40, 0x80 + cp % 0x40]
  else if cp < 0x10000 then
    [0xE0 + cp / 0x1000, 0x80 + cp / 0x40 % 0x40, 0x80 + cp % 0x40]
  else
    [0xF0 + cp / 0x40000, 0x80 + cp / 0x1000 % 0x40, 0x80 + cp / 0x40 % 0x40,
      0x80 + cp % 0x40]

/-- The code unit of the uppercase hexadecimal digit of a value below 16. -/
def hexDigit (n : Nat) : Nat :=
  if n < 10 then 0x30 + n else 0x41 + (n - 10)

/-- One octet as `%HH`: a percent sign and two uppercase hexadecimal digits. -/
def percentOctet (b : Nat) : List Nat :=
  [0x25, hexDigit (b / 16), hexDigit (b % 16)]

/-- The escape of a code point: `%HH` for each octet of its UTF-8 encoding. -/
def escapeCodePoint (cp : Nat) : List Nat :=
  (utf8Octets cp).foldr (fun b acc => percentOctet b ++ acc) []

/-- The function `encodeURIComponent` (the Encode operation of ECMAScript with
no extra unescaped characters): unescaped code units are copied, any other
code point is escaped, and an unpaired surrogate throws `URIError`. -/
def encodeURIComponent : JSString → Except JSError JSString
  | [] => .ok []
  | c :: rest =>
    if isUnescaped c then
      (encodeURIComponent rest).map (fun r => c :: r)
    else if isTrailingSurrogate c then .error .URIError
    else if isLeadingSurrogate c then
      match rest with
      | [] => .error .URIError
      | d :: rest2 =>
        if isTrailingSurrogate d then
          (encodeURIComponent rest2).map
            (fun r => escapeCodePoint (surrogatePairToCodePoint c d) ++ r)
        else .error .URIError
    else
      (encodeURIComponent rest).map (fun r => escapeCodePoint c ++ r)

/-! ## The page -/

/-- A JavaScript value passed as the opaque `commentId`. -/
inductive JSValue where
  | undefined
  | number (n : Int)
  | string (s : JSString)
  deriving DecidableEq, Repr

/-- The arguments of one `fetch` call. -/
structure Request where
  url : JSString
  method : String
  headers : List (String × JSString)
  body : JSString
  deriving DecidableEq, Repr

/-- What the script does to the outside, in the order it happens. -/
inductive Effect where
  | fetch (r : Request)
  | alert (message : String)
  | reload
  | uncaught (e : JSError)
  deriving DecidableEq, Repr

/-- The element a click event is dispatched at: the overlay `#rejectModal`
itself, the button `#rejectSubmit`, or any other element of the page (the
modal content, the label, the text field, the rest of the document). -/
inductive Target where
  | modal
  | rejectSubmit
  | other
  deriving DecidableEq, Repr

/-- The state the script reads and writes. The page carries the elements the
script looks up: the injected overlay, text field and button, and the hidden
`csrfmiddlewaretoken` field the script requires of the page. -/
structure Page where
  /-- The value `modal.style.display`. -/
  display : String
  /-- The handler bound to `#rejectSubmit.onclick`, as the `commentId` and
  `rejectUrl` its closure captured; `none` before the first open. -/
  onclick : Option (JSValue × JSString)
  /-- The value of `input[name="reason"]`. -/
  reasonValue : JSString
  /-- The value of the element `[name=csrfmiddlewaretoken]`. -/
  csrfmiddlewaretoken : JSString
  /-- The number of `fetch` promises not settled yet. -/
  pending : Nat
  /-- The effects so far, oldest first. -/
  log : List Effect
  deriving DecidableEq, Repr

/-- The page after `DOMContentLoaded`: the overlay injected with
`display: none`, an empty text field, no submit handler. -/
def initial (token : JSString) : Page :=
  { display := "none", onclick := none, reasonValue := [],
    csrfmiddlewaretoken := token, pending := 0, log := [] }

/-- The requests among the effects. -/
def requests : List Effect → List Request
  | [] => []
  | .fetch r :: es => r :: requests es
  | _ :: es => requests es

/-- The alert messages among the effects. -/
def alerts : List Effect → List String
  | [] => []
  | .alert m :: es => m :: alerts es
  | _ :: es => alerts es

/-! ## The handlers -/

/-- The function `sendRejectRequest`, up to the `fetch` call: the token is read
from the page, the body is built (which throws when the reason cannot be
encoded) and `fetch` is called, leaving one more promise pending. -/
def sendRejectRequest (_commentId : JSValue) (rejectUrl : JSString) (reason : JSString)
    (s : Page) : Except JSError Page :=
  let csrftoken := s.csrfmiddlewaretoken
  match encodeURIComponent reason with
  | .error e => .error e
  | .ok encoded =>
    .ok { s with
      pending := s.pending + 1
      log := s.log ++ [Effect.fetch
        { url := rejectUrl
          method := "POST"
          headers := [("Content-Type", js "application/x-www-form-urlencoded"),
                      ("X-CSRFToken", csrftoken)]
          body := js "reason=" ++ encoded }] }

/-- The handler `showRejectModal` binds to `#rejectSubmit.onclick`. -/
def rejectSubmitOnclick (commentId : JSValue) (rejectUrl : JSString) (s : Page) :
    Except JSError Page :=
  let reasonInput := s.reasonValue
  if trim reasonInput = [] then
    .ok { s with log := s.log ++ [Effect.alert "Требуется причина."] }
  else
    let reason := reasonInput
    sendRejectRequest commentId rejectUrl reason s

/-- The function `window.showRejectModal`. -/
def showRejectModal (commentId : JSValue) (rejectUrl : JSString) (s : Page) : Page :=
  { s with display := "flex", onclick := some (commentId, rejectUrl) }

/-- The handler `window.onclick`. -/
def windowOnclick (target : Target) (s : Page) : Page :=
  if target = Target.modal then { s with display := "none" } else s

/-- A fetched response, by its status. -/
structure Response where
  status : Nat
  deriving DecidableEq, Repr

/-- The property `response.ok`: the status is in the range 200 to 299. -/
def Response.ok (r : Response) : Bool := 200 ≤ r.status && r.status ≤ 299

/-- The callback given to `.then`. -/
def thenCallback (response : Response) (s : Page) : Page :=
  if response.ok then { s with log := s.log ++ [Effect.reload] }
  else { s with log := s.log ++ [Effect.alert "An error occurred"] }

/-- How a `fetch` promise settles: fulfilled with a response, or rejected
(network or transport error). -/
inductive Outcome where
  | fulfilled (response : Response)
  | rejected
  deriving DecidableEq, Repr

/-- One pending promise settles. The chain is `fetch(..).then(callback)` with
no rejection handler: a fulfilled promise runs the callback, a rejected one
runs nothing of the script. -/
def settle (o : Outcome) (s : Page) : Page :=
  if s.pending = 0 then s
  else
    let s1 := { s with pending := s.pending - 1 }
    match o with
    | .fulfilled response => thenCallback response s1
    | .rejected => s1

/-- A click event: the target's own handler runs first (only the button has
one, once bound), then the event bubbles to `window.onclick`. An exception
thrown by a handler is reported and does not stop the dispatch. -/
def click (target : Target) (s : Page) : Page :=
  let s1 :=
    match target, s.onclick with
    | .rejectSubmit, some (commentId, rejectUrl) =>
      match rejectSubmitOnclick commentId rejectUrl s with
      | .ok s2 => s2
      | .error e => { s with log := s.log ++ [Effect.uncaught e] }
    | _, _ => s
  windowOnclick target s1

/-- What can happen to the page. -/
inductive Event where
  | showRejectModal (commentId : JSValue) (rejectUrl : JSString)
  | click (target : Target)
  | input (value : JSString)
  | setToken (value : JSString)
  | settle (o : Outcome)
  deriving DecidableEq, Repr

/-- One event. -/
def step (s : Page) : Event → Page
  | .showRejectModal commentId rejectUrl => showRejectModal commentId rejectUrl s
  | .click target => click target s
  | .input value => { s with reasonValue := value }
  | .setToken value => { s with csrfmiddlewaretoken := value }
  | .settle o => settle o s

/-- A sequence of events, in order. -/
def run (s : Page) (es : List Event) : Page := es.foldl step s

/-- Two events that are the same up to the `commentId` handed to
`showRejectModal`. -/
def Event.sameUpToCommentId : Event → Event → Prop
  | .showRejectModal _ rejectUrl, .showRejectModal _ rejectUrl2 => rejectUrl = rejectUrl2
  | e, e2 => e = e2

/-- The page with the `commentId` captured by the bound handler forgotten:
everything a user or the server can observe of it. -/
def eraseCommentId (s : Page) : Page :=
  { s with onclick := s.onclick.map (fun p => (JSValue.undefined, p.2)) }

/-- An open of the dialog, an outside click that closes it, or an edit of the
text field: the events before the submit click. -/
def Event.isOpenCloseOrInput : Event → Bool
  | .showRejectModal _ _ => true
  | .click Target.modal => true
  | .input _ => true
  | _ => false

/-! ## The percent-encoding in the words of the specification -/

/-- The characters kept as they are: `A-Z a-z 0-9 - _ . ! ~ * ' ( )`. -/
def keptCharacters : List Char :=
  "ABCDEFGHIJKLMNOPQRSTUVWXYZabcdefghijklmnopqrstuvwxyz0123456789-_.!~*'()".toList

/-- The uppercase hexadecimal digits, by value. -/
def upperHexDigits : List Char := "0123456789ABCDEF".toList

/-- The escape `%HH` of one byte, in uppercase hexadecimal. -/
def percentHH (b : UInt8) : List Char :=
  ['%', upperHexDigits.getD (b.toNat / 16) '0', upperHexDigits.getD (b.toNat % 16) '0']

/-- One character percent-encoded: kept if it is a kept character, otherwise
`%HH` for each byte of its UTF-8 encoding. -/
def percentEncodeChar (c : Char) : List Char :=
  if c ∈ keptCharacters then [c] else (String.utf8EncodeChar c).flatMap percentHH

/-- The percent-encoding of a Unicode string, character by character. -/
def percentEncoding (v : String) : String :=
  String.mk (v.toList.flatMap percentEncodeChar)

/-! ## Decoding `application/x-www-form-urlencoded`

The parser of the URL Standard, which the receiving end applies to the body:
split on `&`, split each piece at its first `=`, turn `+` into a space,
percent-decode, decode as UTF-8. -/

/-- The sequences between the occurrences of a separator. -/
def splitOn (sep : Nat) : List Nat → List (List Nat)
  | [] => [[]]
  | b :: bs =>
    if b = sep then [] :: splitOn sep bs
    else
      match splitOn sep bs with
      | [] => [[b]]
      | piece :: pieces => (b :: piece) :: pieces

/-- A piece split at its first `=` into name and value; a piece without `=` is
all name. -/
def splitNameValue : List Nat → List Nat × List Nat
  | [] => ([], [])
  | b :: bs =>
    if b = 0x3D then ([], bs)
    else ((b :: (splitNameValue bs).1), (splitNameValue bs).2)

/-- ASCII hexadecimal digit, either case. -/
def isHexDigit (b : Nat) : Bool :=
  (0x30 ≤ b && b ≤ 0x39) || (0x41 ≤ b && b ≤ 0x46) || (0x61 ≤ b && b ≤ 0x66)

/-- The value of an ASCII hexadecimal digit. -/
def hexValue (b : Nat) : Nat :=
  if b ≤ 0x39 then b - 0x30 else if b ≤ 0x46 then b - 0x37 else b - 0x57

/-- Percent-decoding: `%` followed by two hexadecimal digits is the byte they
denote, any other byte is itself. -/
def percentDecode : List Nat → List Nat
  | [] => []
  | [b] => [b]
  | [b, h] => b :: percentDecode [h]
  | b :: h :: l :: rest =>
    if b = 0x25 ∧ isHexDigit h = true ∧ isHexDigit l = true then
      (hexValue h * 16 + hexValue l) :: percentDecode rest
    else b :: percentDecode (h :: l :: rest)

/-- Every `%` starts an escape `%HH` of two hexadecimal digits. -/
def validEscapes : List Nat → Bool
  | [] => true
  | [b] => b != 0x25
  | [b, h] => b != 0x25 && validEscapes [h]
  | b :: h :: l :: rest =>
    if b = 0x25 then isHexDigit h && isHexDigit l && validEscapes rest
    else validEscapes (h :: l :: rest)

/-- The state of the UTF-8 decoder between two bytes: the code point so far,
the continuation bytes still needed and the bounds of the next one. -/
structure Utf8State where
  codePoint : Nat
  bytesNeeded : Nat
  lowerBoundary : Nat
  upperBoundary : Nat
  deriving DecidableEq, Repr

/-- The decoder state between two characters. -/
def Utf8State.idle : Utf8State :=
  { codePoint := 0, bytesNeeded := 0, lowerBoundary := 0x80, upperBoundary := 0xBF }

/-- The replacement character U+FFFD. -/
def replacementCharacter : Char := Char.ofNat 0xFFFD

/-- The decoder on a byte when no continuation byte is needed: an ASCII byte
is a character, a lead byte starts a sequence, any other byte is an error. -/
def utf8Lead (b : Nat) : Option Char × Utf8State :=
  if b ≤ 0x7F then (some (Char.ofNat b), Utf8State.idle)
  else if 0xC2 ≤ b ∧ b ≤ 0xDF then
    (none, { codePoint := b % 0x20, bytesNeeded := 1,
             lowerBoundary := 0x80, upperBoundary := 0xBF })
  else if 0xE0 ≤ b ∧ b ≤ 0xEF then
    (none, { codePoint := b % 0x10, bytesNeeded := 2,
             lowerBoundary := if b = 0xE0 then 0xA0 else 0x80,
             upperBoundary := if b = 0xED then 0x9F else 0xBF })
  else if 0xF0 ≤ b ∧ b ≤ 0xF4 then
    (none, { codePoint := b % 0x08, bytesNeeded := 3,
             lowerBoundary := if b = 0xF0 then 0x90 else 0x80,
             upperBoundary := if b = 0xF4 then 0x8F else 0xBF })
  else (some replacementCharacter, Utf8State.idle)

/-- The UTF-8 decoder (without BOM handling): malformed input decodes to
U+FFFD, and the byte that broke a sequence is decoded again on its own. -/
def utf8Decode : Utf8State → List Nat → List Char
  | st, [] => if st.bytesNeeded = 0 then [] else [replacementCharacter]
  | st, b :: rest =>
    if st.bytesNeeded = 0 then
      match utf8Lead b with
      | (some c, st2) => c :: utf8Decode st2 rest
      | (none, st2) => utf8Decode st2 rest
    else if b < st.lowerBoundary ∨ st.upperBoundary < b then
      match utf8Lead b with
      | (some c, st2) => replacementCharacter :: c :: utf8Decode st2 rest
      | (none, st2) => replacementCharacter :: utf8Decode st2 rest
    else if st.bytesNeeded = 1 then
      Char.ofNat (st.codePoint * 0x40 + b % 0x40) :: utf8Decode Utf8State.idle rest
    else
      utf8Decode
        { codePoint := st.codePoint * 0x40 + b % 0x40, bytesNeeded := st.bytesNeeded - 1,
          lowerBoundary := 0x80, upperBoundary := 0xBF } rest

/-- A byte of a name or value with `+` read as a space. -/
def plusToSpace (b : Nat) : Nat := if b = 0x2B then 0x20 else b

/-- The string a name or value denotes. -/
def decodeComponent (bytes : List Nat) : String :=
  String.mk (utf8Decode Utf8State.idle (percentDecode (bytes.map plusToSpace)))

/-- The `application/x-www-form-urlencoded` parser: the name-value pairs of a
body, in order. -/
def parseUrlencoded (input : List Nat) : List (String × String) :=
  ((splitOn 0x26 input).filter (fun piece => !piece.isEmpty)).map
    (fun piece =>
      (decodeComponent (splitNameValue piece).1, decodeComponent (splitNameValue piece).2))

/-! ## Effects of the handlers -/

@[simp] theorem requests_append (l m : List Effect) :
    requests (l ++ m) = requests l ++ requests m := by
  induction l with
  | nil => rfl
  | cons e l ih => cases e <;> simp [requests, ih]

@[simp] theorem alerts_append (l m : List Effect) :
    alerts (l ++ m) = alerts l ++ alerts m := by
  induction l with
  | nil => rfl
  | cons e l ih => cases e <;> simp [alerts, ih]

/-- A string trims to nothing exactly when all of it is white space or line
terminators. -/
theorem trim_eq_nil_iff (v : JSString) :
    trim v = [] ↔ ∀ c ∈ v, isWhiteSpaceOrLineTerminator c = true := by
  unfold trim trimEnd trimStart
  rw [List.reverse_eq_nil_iff, List.dropWhile_eq_nil_iff]
  constructor
  · intro h
    have h2 : List.dropWhile isWhiteSpaceOrLineTerminator v = [] := by
      by_contra hne
      obtain ⟨x, l, hx⟩ := List.exists_cons_of_ne_nil hne
      have hhead := List.head_dropWhile_not isWhiteSpaceOrLineTerminator v hne
      have hmem : (List.dropWhile isWhiteSpaceOrLineTerminator v).head hne ∈
          (List.dropWhile isWhiteSpaceOrLineTerminator v).reverse :=
        List.mem_reverse.mpr (List.head_mem hne)
      rw [h _ hmem] at hhead
      exact absurd hhead (by simp)
    exact List.dropWhile_eq_nil_iff.mp h2
  · intro h x hx
    exact h x ((List.dropWhile_sublist _).subset (List.mem_reverse.mp hx))

/-! ## UTF-8 and UTF-16 -/

theorem lor_low6 : ∀ y < 64, (y ||| 128 = 128 + y) ∧ (y ||| 192 = 192 + y) := by
  decide

theorem lor_low4 : ∀ y < 16, (y ||| 224 = 224 + y) ∧ (y ||| 240 = 240 + y) := by
  decide

theorem toNat_and_or (v : UInt32) (m t : UInt8) :
    (v.toUInt8 &&& m ||| t).toNat = (v.toNat % 256 &&& m.toNat) ||| t.toNat := by
  show ((v.toUInt8.toBitVec &&& m.toBitVec) ||| t.toBitVec).toNat = _
  rw [BitVec.toNat_or, BitVec.toNat_and]
  show ((BitVec.ofNat 8 v.toNat).toNat &&& _ ||| _) = _
  rw [BitVec.toNat_ofNat]
  rfl

theorem and_63 (x : Nat) : x &&& 63 = x % 64 := Nat.and_pow_two_sub_one_eq_mod x 6

theorem and_31 (x : Nat) : x &&& 31 = x % 32 := Nat.and_pow_two_sub_one_eq_mod x 5

theorem and_15 (x : Nat) : x &&& 15 = x % 16 := Nat.and_pow_two_sub_one_eq_mod x 4

theorem and_7 (x : Nat) : x &&& 7 = x % 8 := Nat.and_pow_two_sub_one_eq_mod x 3

/-- The octets of `utf8Octets` are the bytes of the UTF-8 encoding of the
standard library. -/
theorem utf8EncodeChar_toNat (c : Char) :
    (String.utf8EncodeChar c).map UInt8.toNat = utf8Octets c.toNat := by
  have hv := c.valid
  unfold String.utf8EncodeChar utf8Octets
  simp only [Char.toNat]
  generalize c.val = v at *
  have hlt : v.toNat < 0x110000 := by
    rcases hv with h | h
    · have : v.toNat < 0xd800 := h
      omega
    · exact h.2
  have e1 : ∀ n : Nat, n < 2^32 → (v ≤ UInt32.ofNat n ↔ v.toNat < n + 1) := by
    intro n hn
    rw [UInt32.le_def, BitVec.le_def]
    show v.toNat ≤ (BitVec.ofNat 32 n).toNat ↔ _
    rw [BitVec.toNat_ofNat, Nat.mod_eq_of_lt hn]
    omega
  have e127 : (v ≤ 127 ↔ v.toNat < 128) := e1 127 (by decide)
  have e2047 : (v ≤ 2047 ↔ v.toNat < 2048) := e1 2047 (by decide)
  have e65535 : (v ≤ 65535 ↔ v.toNat < 65536) := e1 65535 (by decide)
  simp only [e127, e2047, e65535]
  have s6 : (v >>> 6).toNat = v.toNat / 64 := by
    show v.toNat >>> 6 = _
    rw [Nat.shiftRight_eq_div_pow]
  have s12 : (v >>> 12).toNat = v.toNat / 4096 := by
    show v.toNat >>> 12 = _
    rw [Nat.shiftRight_eq_div_pow]
  have s18 : (v >>> 18).toNat = v.toNat / 262144 := by
    show v.toNat >>> 18 = _
    rw [Nat.shiftRight_eq_div_pow]
  have m63 : (63 : UInt8).toNat = 63 := rfl
  have m31 : (31 : UInt8).toNat = 31 := rfl
  have m15 : (15 : UInt8).toNat = 15 := rfl
  have m7 : (7 : UInt8).toNat = 7 := rfl
  have t128 : (128 : UInt8).toNat = 128 := rfl
  have t192 : (192 : UInt8).toNat = 192 := rfl
  have t224 : (224 : UInt8).toNat = 224 := rfl
  have t240 : (240 : UInt8).toNat = 240 := rfl
  have h0 : v.toUInt8.toNat = v.toNat % 256 := by
    show (BitVec.ofNat 8 v.toNat).toNat = _
    rw [BitVec.toNat_ofNat]
  split
  · simp only [List.map, h0]
    congr 1
    omega
  · split
    · simp only [List.map, toNat_and_or, s6, m63, m31, t128, t192, and_63, and_31]
      rw [(lor_low6 _ (by omega)).1, (lor_low6 _ (by omega)).2]
      congr 1
      · omega
      · congr 1; omega
    · split
      · simp only [List.map, toNat_and_or, s6, s12, m63, m15, t128, t224, and_63, and_15]
        rw [(lor_low6 _ (by omega)).1, (lor_low6 _ (by omega)).1, (lor_low4 _ (by omega)).1]
        congr 1
        · omega
        · congr 1
          · omega
          · congr 1; omega
      · simp only [List.map, toNat_and_or, s6, s12, s18, m63, m7, t128, t240, and_63, and_7]
        rw [(lor_low6 _ (by omega)).1, (lor_low6 _ (by omega)).1, (lor_low6 _ (by omega)).1,
          (lor_low4 _ (by omega)).2]
        congr 1
        · omega
        · congr 1
          · omega
          · congr 1
            · omega
            · congr 1; omega

theorem utf16_append (a b : List Char) : utf16 (a ++ b) = utf16 a ++ utf16 b := by
  induction a with
  | nil => rfl
  | cons c a ih => simp [utf16, ih]

theorem char_scalar (c : Char) :
    c.toNat < 0xD800 ∨ (0xDFFF < c.toNat ∧ c.toNat < 0x110000) := c.valid

theorem mem_keptCharacters_iff (c : Char) :
    c ∈ keptCharacters ↔ isUnescaped c.toNat = true := by
  constructor
  · intro h
    have hall : ∀ x ∈ keptCharacters, isUnescaped x.toNat = true := by decide
    exact hall c h
  · intro h
    have hsmall : ∀ n < 128, isUnescaped n = true → Char.ofNat n ∈ keptCharacters := by
      decide
    have hlt : c.toNat < 128 := by
      simp only [isUnescaped, Bool.or_eq_true, Bool.and_eq_true, decide_eq_true_eq] at h
      omega
    have := hsmall c.toNat hlt h
    rwa [Char.ofNat_toNat] at this

theorem utf16_percentHH (b : UInt8) : utf16 (percentHH b) = percentOctet b.toNat := by
  have hb : b.toNat < 256 := b.toBitVec.isLt
  have hdigit : ∀ k < 16, utf16Units (upperHexDigits.getD k '0').toNat = [hexDigit k] := by
    decide
  simp only [percentHH, utf16, percentOctet, hdigit (b.toNat / 16) (by omega),
    hdigit (b.toNat % 16) (by omega)]
  rfl

theorem utf16_flatMap_percentHH (l : List UInt8) :
    utf16 (l.flatMap percentHH)
      = (l.map UInt8.toNat).foldr (fun b acc => percentOctet b ++ acc) [] := by
  induction l with
  | nil => rfl
  | cons b l ih =>
    simp only [List.flatMap_cons, utf16_append, utf16_percentHH, ih, List.map_cons,
      List.foldr_cons]

theorem utf16_percentEncodeChar_escaped (c : Char) (h : isUnescaped c.toNat = false) :
    utf16 (percentEncodeChar c) = escapeCodePoint c.toNat := by
  have hk : c ∉ keptCharacters := by
    rw [mem_keptCharacters_iff, h]; simp
  simp only [percentEncodeChar, hk, if_false, utf16_flatMap_percentHH, utf8EncodeChar_toNat,
    escapeCodePoint]

theorem utf16_percentEncodeChar_kept (c : Char) (h : isUnescaped c.toNat = true) :
    utf16 (percentEncodeChar c) = [c.toNat] ∧ utf16Units c.toNat = [c.toNat] := by
  have hk : c ∈ keptCharacters := (mem_keptCharacters_iff c).mpr h
  have hlt : c.toNat < 128 := by
    simp only [isUnescaped, Bool.or_eq_true, Bool.and_eq_true, decide_eq_true_eq] at h
    omega
  have hu : utf16Units c.toNat = [c.toNat] := by
    simp only [utf16Units]; rw [if_pos (by omega)]
  simp [percentEncodeChar, hk, utf16, hu]

/-! ## `encodeURIComponent` on well-formed strings -/

theorem encodeURIComponent_cons_unescaped (c : Nat) (rest : JSString)
    (h : isUnescaped c = true) :
    encodeURIComponent (c :: rest) = (encodeURIComponent rest).map (fun r => c :: r) := by
  rw [encodeURIComponent.eq_def]; simp [h]

theorem encodeURIComponent_cons_escaped (c : Nat) (rest : JSString)
    (h : isUnescaped c = false) (hl : isLeadingSurrogate c = false)
    (ht : isTrailingSurrogate c = false) :
    encodeURIComponent (c :: rest)
      = (encodeURIComponent rest).map (fun r => escapeCodePoint c ++ r) := by
  rw [encodeURIComponent.eq_def]; simp [h, hl, ht]

theorem encodeURIComponent_cons_pair (c d : Nat) (rest : JSString)
    (hl : isLeadingSurrogate c = true) (ht : isTrailingSurrogate d = true) :
    encodeURIComponent (c :: d :: rest)
      = (encodeURIComponent rest).map
          (fun r => escapeCodePoint (surrogatePairToCodePoint c d) ++ r) := by
  have hu : isUnescaped c = false := by
    simp only [isLeadingSurrogate, Bool.and_eq_true, decide_eq_true_eq] at hl
    simp only [isUnescaped, Bool.or_eq_false_iff, Bool.and_eq_false_iff, decide_eq_false_iff_not]
    omega
  have hc : isTrailingSurrogate c = false := by
    simp only [isLeadingSurrogate, Bool.and_eq_true, decide_eq_true_eq] at hl
    simp only [isTrailingSurrogate, Bool.and_eq_false_iff, decide_eq_false_iff_not]
    omega
  rw [encodeURIComponent.eq_def]; simp [hu, hc, hl, ht]

/-- On a well-formed string `encodeURIComponent` returns, and returns the
percent-encoding of the specification. -/
theorem encodeURIComponent_utf16 (cs : List Char) :
    encodeURIComponent (utf16 cs) = .ok (utf16 (cs.flatMap percentEncodeChar)) := by
  induction cs with
  | nil => rfl
  | cons c cs ih =>
    simp only [utf16, List.flatMap_cons, utf16_append]
    cases hu : isUnescaped c.toNat with
    | true =>
      obtain ⟨h1, h2⟩ := utf16_percentEncodeChar_kept c hu
      rw [h1, h2]
      simp only [List.singleton_append]
      rw [encodeURIComponent_cons_unescaped _ _ hu, ih]
      rfl
    | false =>
      rw [utf16_percentEncodeChar_escaped c hu]
      have hs := char_scalar c
      by_cases hb : c.toNat < 0x10000
      · have hu16 : utf16Units c.toNat = [c.toNat] := by
          simp only [utf16Units]; rw [if_pos hb]
        have hl : isLeadingSurrogate c.toNat = false := by
          simp only [isLeadingSurrogate, Bool.and_eq_false_iff, decide_eq_false_iff_not]
          omega
        have ht : isTrailingSurrogate c.toNat = false := by
          simp only [isTrailingSurrogate, Bool.and_eq_false_iff, decide_eq_false_iff_not]
          omega
        rw [hu16]
        simp only [List.singleton_append]
        rw [encodeURIComponent_cons_escaped _ _ hu hl ht, ih]
        rfl
      · have hu16 : utf16Units c.toNat
            = [0xD800 + (c.toNat - 0x10000) / 0x400, 0xDC00 + (c.toNat - 0x10000) % 0x400] := by
          simp only [utf16Units]; rw [if_neg hb]
        have hl : isLeadingSurrogate (0xD800 + (c.toNat - 0x10000) / 0x400) = true := by
          simp only [isLeadingSurrogate, Bool.and_eq_true, decide_eq_true_eq]
          omega
        have ht : isTrailingSurrogate (0xDC00 + (c.toNat - 0x10000) % 0x400) = true := by
          simp only [isTrailingSurrogate, Bool.and_eq_true, decide_eq_true_eq]
          omega
        have hp : surrogatePairToCodePoint (0xD800 + (c.toNat - 0x10000) / 0x400)
            (0xDC00 + (c.toNat - 0x10000) % 0x400) = c.toNat := by
          simp only [surrogatePairToCodePoint]
          omega
        rw [hu16]
        simp only [List.cons_append, List.nil_append]
        rw [encodeURIComponent_cons_pair _ _ _ hl ht, ih, hp]
        rfl

/-- The submit handler leaves the dialog's visibility, the text field, the
token and the bound handler as they are. -/
theorem rejectSubmitOnclick_frame (commentId : JSValue) (rejectUrl : JSString) (s s2 : Page)
    (h : rejectSubmitOnclick commentId rejectUrl s = .ok s2) :
    s2.display = s.display ∧ s2.onclick = s.onclick ∧ s2.reasonValue = s.reasonValue
      ∧ s2.csrfmiddlewaretoken = s.csrfmiddlewaretoken := by
  simp only [rejectSubmitOnclick, sendRejectRequest] at h
  split at h
  · cases h; simp
  · split at h
    · cases h
    · cases h; simp

/-- C1. With a handler bound (the dialog was opened) and a text-field value that
trims to the empty string, a click on the submit button raises the validation
alert and nothing else: no request is issued, no promise is added, and the
dialog's visibility is unchanged; such a value is empty or made only of white
space and line terminators. -/
theorem submit_blank_reason (s : Page) (commentId : JSValue) (rejectUrl v : JSString)
    (hopen : s.onclick = some (commentId, rejectUrl))
    (hvalue : s.reasonValue = v) (hblank : trim v = []) :
    click Target.rejectSubmit s = { s with log := s.log ++ [Effect.alert "Требуется причина."] }
      ∧ requests (click Target.rejectSubmit s).log = requests s.log
      ∧ alerts (click Target.rejectSubmit s).log = alerts s.log ++ ["Требуется причина."]
      ∧ (click Target.rejectSubmit s).pending = s.pending
      ∧ (click Target.rejectSubmit s).display = s.display
      ∧ (∀ c ∈ v, isWhiteSpaceOrLineTerminator c = true) := by
  subst hvalue
  have h : click Target.rejectSubmit s
      = { s with log := s.log ++ [Effect.alert "Требуется причина."] } := by
    simp [click, hopen, rejectSubmitOnclick, hblank, windowOnclick]
  rw [h]
  simp only [requests_append, alerts_append, requests, alerts, List.append_nil, true_and]
  exact (trim_eq_nil_iff _).mp hblank

/-- C1 at a dialog opened on a fresh page whose text field holds a space, a tab
and a line feed. -/
theorem submit_blank_reason_witness :
    click Target.rejectSubmit
        { showRejectModal (JSValue.number 42) (js "/reject/42") (initial (js "tok")) with
          reasonValue := [0x20, 0x09, 0x0A] }
      = { showRejectModal (JSValue.number 42) (js "/reject/42") (initial (js "tok")) with
          reasonValue := [0x20, 0x09, 0x0A]
          log := [Effect.alert "Требуется причина."] } :=
  (submit_blank_reason
    { showRejectModal (JSValue.number 42) (js "/reject/42") (initial (js "tok")) with
      reasonValue := [0x20, 0x09, 0x0A] }
    (JSValue.number 42) (js "/reject/42") [0x20, 0x09, 0x0A] rfl rfl (by decide)).1

/-- C7. From any page and for any arguments, `showRejectModal` leaves the
dialog visible (display `flex`), issues no request, raises no alert and
does not touch the text field. -/
theorem showRejectModal_visible (s : Page) (commentId : JSValue) (rejectUrl : JSString) :
    (showRejectModal commentId rejectUrl s).display = "flex"
      ∧ (showRejectModal commentId rejectUrl s).log = s.log
      ∧ (showRejectModal commentId rejectUrl s).pending = s.pending
      ∧ (showRejectModal commentId rejectUrl s).reasonValue = s.reasonValue := by
  simp [showRejectModal]

/-- C6. A click whose target is the overlay itself hides the dialog and changes
nothing else (no effect is logged, the text field and the bound handler are
the same); for any other target `window.onclick` leaves the page as it is,
and the whole click leaves the dialog's visibility unchanged. -/
theorem click_outside_closes (s : Page) :
    click Target.modal s = { s with display := "none" }
      ∧ (click Target.modal s).log = s.log
      ∧ (click Target.modal s).reasonValue = s.reasonValue
      ∧ (click Target.modal s).onclick = s.onclick
      ∧ (∀ t : Target, t ≠ Target.modal → windowOnclick t s = s)
      ∧ (∀ t : Target, t ≠ Target.modal → (click t s).display = s.display) := by
  refine ⟨by simp [click, windowOnclick], by simp [click, windowOnclick],
    by simp [click, windowOnclick], by simp [click, windowOnclick], ?_, ?_⟩
  · intro t ht
    simp [windowOnclick, ht]
  · intro t ht
    cases t with
    | modal => exact absurd rfl ht
    | other => simp [click, windowOnclick]
    | rejectSubmit =>
      cases hh : s.onclick with
      | none => simp [click, windowOnclick, hh]
      | some p =>
        obtain ⟨commentId, rejectUrl⟩ := p
        cases hr : rejectSubmitOnclick commentId rejectUrl s with
        | error e => simp [click, windowOnclick, hh, hr]
        | ok s2 =>
          have := (rejectSubmitOnclick_frame commentId rejectUrl s s2 hr).1
          simp [click, windowOnclick, hh, hr, this]

/-- C4. When a pending request of an open dialog is answered: a status from 200
to 299 logs one page reload and no alert; any other status logs exactly the
failure alert and no reload; either way the display stays `flex`, no
request is issued and the promise is no longer pending. -/
theorem response_reload_or_alert (s : Page) (response : Response)
    (hpending : 0 < s.pending) (hopen : s.display = "flex") :
    ((200 ≤ response.status ∧ response.status ≤ 299) →
        (settle (Outcome.fulfilled response) s).log = s.log ++ [Effect.reload])
      ∧ (¬ (200 ≤ response.status ∧ response.status ≤ 299) →
        (settle (Outcome.fulfilled response) s).log
          = s.log ++ [Effect.alert "An error occurred"])
      ∧ (settle (Outcome.fulfilled response) s).display = "flex"
      ∧ requests (settle (Outcome.fulfilled response) s).log = requests s.log
      ∧ (settle (Outcome.fulfilled response) s).pending = s.pending - 1 := by
  have hp : s.pending ≠ 0 := by omega
  by_cases hok : 200 ≤ response.status ∧ response.status ≤ 299
  · have : response.ok = true := by simp [Response.ok, hok]
    simp [settle, hp, thenCallback, this, hok, hopen, requests]
  · have : response.ok = false := by
      simp only [Response.ok, Bool.and_eq_false_iff, decide_eq_false_iff_not]
      omega
    simp [settle, hp, thenCallback, this, hok, hopen, requests]

/-- C4 at the run open, type, submit: the pending request answered with 200
reloads the page, answered with 500 raises the failure alert. -/
theorem response_reload_or_alert_witness :
    (settle (Outcome.fulfilled { status := 200 })
        (run (initial (js "tok"))
          [Event.showRejectModal (JSValue.number 42) (js "/reject/42"),
           Event.input (js "spam content"),
           Event.click Target.rejectSubmit])).display = "flex"
      ∧ (settle (Outcome.fulfilled { status := 500 })
          (run (initial (js "tok"))
            [Event.showRejectModal (JSValue.number 42) (js "/reject/42"),
             Event.input (js "spam content"),
             Event.click Target.rejectSubmit])).log
        = (run (initial (js "tok"))
            [Event.showRejectModal (JSValue.number 42) (js "/reject/42"),
             Event.input (js "spam content"),
             Event.click Target.rejectSubmit]).log ++ [Effect.alert "An error occurred"] :=
  ⟨(response_reload_or_alert
      (run (initial (js "tok"))
        [Event.showRejectModal (JSValue.number 42) (js "/reject/42"),
         Event.input (js "spam content"),
         Event.click Target.rejectSubmit])
      { status := 200 } (by decide) (by decide)).2.2.1,
   (response_reload_or_alert
      (run (initial (js "tok"))
        [Event.showRejectModal (JSValue.number 42) (js "/reject/42"),
         Event.input (js "spam content"),
         Event.click Target.rejectSubmit])
      { status := 500 } (by decide) (by decide)).2.1 (by decide)⟩

/-- C5. A rejected `fetch` promise runs nothing of the script: the log is the
same, so no alert is raised, while the dialog stays as it is and no request
is issued; shown for every page and at the run open, type, submit, network
error, where the only effect logged is the request itself. -/
theorem network_error_is_silent :
    (∀ s : Page, (settle Outcome.rejected s).log = s.log
        ∧ (settle Outcome.rejected s).display = s.display)
      ∧ alerts (run (initial (js "tok"))
          [Event.showRejectModal (JSValue.number 42) (js "/reject/42"),
           Event.input (js "spam content"),
           Event.click Target.rejectSubmit,
           Event.settle Outcome.rejected]).log = []
      ∧ (run (initial (js "tok"))
          [Event.showRejectModal (JSValue.number 42) (js "/reject/42"),
           Event.input (js "spam content"),
           Event.click Target.rejectSubmit,
           Event.settle Outcome.rejected]).log
        = [Effect.fetch
            { url := js "/reject/42"
              method := "POST"
              headers := [("Content-Type", js "application/x-www-form-urlencoded"),
                          ("X-CSRFToken", js "tok")]
              body := js "reason=spam%20content" }] := by
  refine ⟨?_, by decide, by decide⟩
  intro s
  unfold settle
  split <;> simp

theorem click_eraseCommentId (x : Target) (s t : Page)
    (hs : eraseCommentId s = eraseCommentId t) :
    eraseCommentId (click x s) = eraseCommentId (click x t) := by
  obtain ⟨d, o, v, tok, p, l⟩ := s
  obtain ⟨d2, o2, v2, tok2, p2, l2⟩ := t
  simp only [eraseCommentId, Page.mk.injEq] at hs
  obtain ⟨rfl, ho, rfl, rfl, rfl, rfl⟩ := hs
  cases x with
  | modal => simp [click, windowOnclick, eraseCommentId, ho]
  | other => simp [click, windowOnclick, eraseCommentId, ho]
  | rejectSubmit =>
    cases o with
    | none =>
      cases o2 with
      | none => rfl
      | some q => simp at ho
    | some q =>
      cases o2 with
      | none => simp at ho
      | some q2 =>
        obtain ⟨c, u⟩ := q
        obtain ⟨c2, u2⟩ := q2
        simp only [Option.map_some', Option.some.injEq, Prod.mk.injEq, true_and] at ho
        subst ho
        simp only [click, rejectSubmitOnclick, sendRejectRequest, windowOnclick]
        by_cases hb : trim v = []
        · simp [hb, eraseCommentId]
        · cases hr : encodeURIComponent v <;> simp [hb, hr, eraseCommentId]

theorem settle_eraseCommentId (x : Outcome) (s t : Page)
    (hs : eraseCommentId s = eraseCommentId t) :
    eraseCommentId (settle x s) = eraseCommentId (settle x t) := by
  obtain ⟨d, o, v, tok, p, l⟩ := s
  obtain ⟨d2, o2, v2, tok2, p2, l2⟩ := t
  simp only [eraseCommentId, Page.mk.injEq] at hs
  obtain ⟨rfl, ho, rfl, rfl, rfl, rfl⟩ := hs
  simp only [settle, thenCallback]
  by_cases hp : p = 0
  · simp [hp, eraseCommentId, ho]
  · cases x with
    | rejected => simp [hp, eraseCommentId, ho]
    | fulfilled r => cases hr : r.ok <;> simp [hp, eraseCommentId, ho, hr]

theorem step_eraseCommentId (s t : Page) (e e2 : Event)
    (hs : eraseCommentId s = eraseCommentId t) (he : e.sameUpToCommentId e2) :
    eraseCommentId (step s e) = eraseCommentId (step t e2) := by
  cases e with
  | click x =>
    cases e2 <;> simp only [Event.sameUpToCommentId, reduceCtorEq, Event.click.injEq] at he
    subst he
    exact click_eraseCommentId x s t hs
  | settle x =>
    cases e2 <;> simp only [Event.sameUpToCommentId, reduceCtorEq, Event.settle.injEq] at he
    subst he
    exact settle_eraseCommentId x s t hs
  | showRejectModal c u =>
    cases e2 <;> simp only [Event.sameUpToCommentId, reduceCtorEq] at he
    subst he
    simp only [eraseCommentId, Page.mk.injEq] at hs
    simp [step, showRejectModal, eraseCommentId, hs]
  | input x =>
    cases e2 <;> simp only [Event.sameUpToCommentId, reduceCtorEq, Event.input.injEq] at he
    subst he
    simp only [eraseCommentId, Page.mk.injEq] at hs
    simp [step, eraseCommentId, hs]
  | setToken x =>
    cases e2 <;> simp only [Event.sameUpToCommentId, reduceCtorEq, Event.setToken.injEq] at he
    subst he
    simp only [eraseCommentId, Page.mk.injEq] at hs
    simp [step, eraseCommentId, hs]

theorem run_eraseCommentId (es es2 : List Event)
    (h : List.Forall₂ Event.sameUpToCommentId es es2) :
    ∀ s t : Page, eraseCommentId s = eraseCommentId t →
      eraseCommentId (run s es) = eraseCommentId (run t es2) := by
  induction h with
  | nil => intro s t hs; simpa [run] using hs
  | cons he _ ih =>
    intro s t hs
    simp only [run, List.foldl_cons]
    exact ih _ _ (step_eraseCommentId s t _ _ hs he)

/-- C10. Two runs from the same page whose events differ only in the
`commentId` handed to `showRejectModal` log the same effects (the same
requests with the same URL, method, headers and body, the same alerts and
reloads), show the same visibility and end in pages that differ at most in
the `commentId` the bound handler captured. -/
theorem commentId_not_observable (s : Page) (es es2 : List Event)
    (h : List.Forall₂ Event.sameUpToCommentId es es2) :
    (run s es).log = (run s es2).log
      ∧ (run s es).display = (run s es2).display
      ∧ eraseCommentId (run s es) = eraseCommentId (run s es2) := by
  have key := run_eraseCommentId es es2 h s s rfl
  refine ⟨?_, ?_, key⟩
  · have := congrArg Page.log key
    simpa [eraseCommentId] using this
  · have := congrArg Page.display key
    simpa [eraseCommentId] using this

/-- C10 at the run open, type, submit, answer 500, once with `commentId` 1 and
once with the string `x`. -/
theorem commentId_not_observable_witness :
    (run (initial (js "tok"))
        [Event.showRejectModal (JSValue.number 1) (js "/reject/42"),
         Event.input (js "spam content"),
         Event.click Target.rejectSubmit,
         Event.settle (Outcome.fulfilled { status := 500 })]).log
      = (run (initial (js "tok"))
        [Event.showRejectModal (JSValue.string (js "x")) (js "/reject/42"),
         Event.input (js "spam content"),
         Event.click Target.rejectSubmit,
         Event.settle (Outcome.fulfilled { status := 500 })]).log :=
  (commentId_not_observable (initial (js "tok"))
    [Event.showRejectModal (JSValue.number 1) (js "/reject/42"),
     Event.input (js "spam content"),
     Event.click Target.rejectSubmit,
     Event.settle (Outcome.fulfilled { status := 500 })]
    [Event.showRejectModal (JSValue.string (js "x")) (js "/reject/42"),
     Event.input (js "spam content"),
     Event.click Target.rejectSubmit,
     Event.settle (Outcome.fulfilled { status := 500 })]
    (List.Forall₂.cons rfl (List.Forall₂.cons rfl (List.Forall₂.cons rfl
      (List.Forall₂.cons rfl List.Forall₂.nil))))).1

/-! ## The encoded reason read back -/

theorem utf8Octets_lt (cp : Nat) (h : cp < 0x110000) : ∀ b ∈ utf8Octets cp, b < 256 := by
  intro b hb
  unfold utf8Octets at hb
  split at hb
  · simp only [List.mem_singleton] at hb; omega
  · split at hb
    · simp only [List.mem_cons, List.mem_singleton, List.not_mem_nil, or_false] at hb
      omega
    · split at hb
      · simp only [List.mem_cons, List.mem_singleton, List.not_mem_nil, or_false] at hb
        omega
      · simp only [List.mem_cons, List.mem_singleton, List.not_mem_nil, or_false] at hb
        omega

theorem hexDigit_spec : ∀ k < 16,
    isHexDigit (hexDigit k) = true ∧ hexValue (hexDigit k) = k ∧ hexDigit k ≠ 0x25
      ∧ hexDigit k < 0x80 ∧ hexDigit k ≠ 0x26 ∧ hexDigit k ≠ 0x3D ∧ hexDigit k ≠ 0x2B := by
  decide

theorem percentDecode_cons (x : Nat) (rest : List Nat) (h : x ≠ 0x25) :
    percentDecode (x :: rest) = x :: percentDecode rest := by
  match rest with
  | [] => simp [percentDecode]
  | [a] => simp [percentDecode]
  | a :: b :: r => simp [percentDecode, h]

theorem percentDecode_percentOctet (b : Nat) (rest : List Nat) (h : b < 256) :
    percentDecode (percentOctet b ++ rest) = b :: percentDecode rest := by
  obtain ⟨h1, h2, -⟩ := hexDigit_spec (b / 16) (by omega)
  obtain ⟨h3, h4, -⟩ := hexDigit_spec (b % 16) (by omega)
  simp only [percentOctet, List.cons_append, List.nil_append, percentDecode, h1, h2, h3, h4,
    and_self, if_true]
  congr 1
  omega

theorem validEscapes_cons (x : Nat) (rest : List Nat) (h : x ≠ 0x25) :
    validEscapes (x :: rest) = validEscapes rest := by
  match rest with
  | [] => simp [validEscapes, h]
  | [a] => simp [validEscapes, h]
  | a :: b :: r => simp [validEscapes, h]

theorem validEscapes_percentOctet (b : Nat) (rest : List Nat) (h : b < 256) :
    validEscapes (percentOctet b ++ rest) = validEscapes rest := by
  obtain ⟨h1, -⟩ := hexDigit_spec (b / 16) (by omega)
  obtain ⟨h3, -⟩ := hexDigit_spec (b % 16) (by omega)
  simp [percentOctet, validEscapes, h1, h3]

/-- What the escapes of a list of octets look like to the decoder. -/
theorem escapes_spec (bs : List Nat) (hbs : ∀ b ∈ bs, b < 256) (rest : List Nat) :
    percentDecode (bs.foldr (fun b acc => percentOctet b ++ acc) [] ++ rest)
        = bs ++ percentDecode rest
      ∧ validEscapes (bs.foldr (fun b acc => percentOctet b ++ acc) [] ++ rest)
        = validEscapes rest
      ∧ ∀ x ∈ bs.foldr (fun b acc => percentOctet b ++ acc) [],
          x < 0x80 ∧ x ≠ 0x26 ∧ x ≠ 0x3D ∧ x ≠ 0x2B := by
  induction bs with
  | nil => simp
  | cons b bs ih =>
    have hb : b < 256 := hbs b (List.mem_cons_self _ _)
    obtain ⟨i1, i2, i3⟩ := ih (fun x hx => hbs x (List.mem_cons_of_mem _ hx))
    refine ⟨?_, ?_, ?_⟩
    · simp only [List.foldr_cons, List.append_assoc, List.cons_append]
      rw [percentDecode_percentOctet b _ hb, i1]
    · simp only [List.foldr_cons, List.append_assoc]
      rw [validEscapes_percentOctet b _ hb, i2]
    · intro x hx
      simp only [List.foldr_cons, List.mem_append] at hx
      rcases hx with hx | hx
      · obtain ⟨-, -, -, a1, a2, a3, a4⟩ := hexDigit_spec (b / 16) (by omega)
        obtain ⟨-, -, -, c1, c2, c3, c4⟩ := hexDigit_spec (b % 16) (by omega)
        simp only [percentOctet, List.mem_cons, List.mem_singleton, List.not_mem_nil,
          or_false] at hx
        rcases hx with rfl | rfl | rfl
        · decide
        · exact ⟨a1, a2, a3, a4⟩
        · exact ⟨c1, c2, c3, c4⟩
      · exact i3 x hx

theorem isUnescaped_spec (x : Nat) (h : isUnescaped x = true) :
    x < 0x80 ∧ x ≠ 0x25 ∧ x ≠ 0x26 ∧ x ≠ 0x3D ∧ x ≠ 0x2B := by
  simp only [isUnescaped, Bool.or_eq_true, Bool.and_eq_true, decide_eq_true_eq] at h
  omega

theorem utf16_flatMap_percentEncodeChar_cons (c : Char) (cs : List Char) :
    utf16 ((c :: cs).flatMap percentEncodeChar)
      = (if isUnescaped c.toNat = true then [c.toNat] else escapeCodePoint c.toNat)
        ++ utf16 (cs.flatMap percentEncodeChar) := by
  simp only [List.flatMap_cons, utf16_append]
  cases hu : isUnescaped c.toNat with
  | true => rw [(utf16_percentEncodeChar_kept c hu).1]; simp
  | false => rw [utf16_percentEncodeChar_escaped c hu]; simp

theorem char_toNat_lt (c : Char) : c.toNat < 0x110000 := by
  have := char_scalar c
  omega

/-- The encoded reason: ASCII only, free of `&`, `=` and `+`, every `%` the
start of an escape, and percent-decoding to the UTF-8 bytes of the reason. -/
theorem encoded_spec (cs : List Char) :
    (∀ x ∈ utf16 (cs.flatMap percentEncodeChar), x < 0x80 ∧ x ≠ 0x26 ∧ x ≠ 0x3D ∧ x ≠ 0x2B)
      ∧ validEscapes (utf16 (cs.flatMap percentEncodeChar)) = true
      ∧ percentDecode (utf16 (cs.flatMap percentEncodeChar))
        = cs.flatMap (fun c => utf8Octets c.toNat) := by
  induction cs with
  | nil => exact ⟨by simp [utf16], rfl, rfl⟩
  | cons c cs ih =>
    obtain ⟨i1, i2, i3⟩ := ih
    rw [utf16_flatMap_percentEncodeChar_cons]
    cases hu : isUnescaped c.toNat with
    | true =>
      obtain ⟨u1, u2, u3, u4, u5⟩ := isUnescaped_spec _ hu
      simp only [if_true, List.singleton_append]
      refine ⟨?_, ?_, ?_⟩
      · intro x hx
        rcases List.mem_cons.mp hx with rfl | hx
        · exact ⟨u1, u3, u4, u5⟩
        · exact i1 x hx
      · rw [validEscapes_cons _ _ u2, i2]
      · rw [percentDecode_cons _ _ u2, i3]
        simp only [List.flatMap_cons]
        have : utf8Octets c.toNat = [c.toNat] := by
          simp only [utf8Octets]; rw [if_pos u1]
        rw [this]; rfl
    | false =>
      have hb := utf8Octets_lt c.toNat (char_toNat_lt c)
      obtain ⟨e1, e2, e3⟩ := escapes_spec (utf8Octets c.toNat) hb
        (utf16 (cs.flatMap percentEncodeChar))
      simp only [Bool.false_eq_true, if_false, escapeCodePoint]
      refine ⟨?_, ?_, ?_⟩
      · intro x hx
        rcases List.mem_append.mp hx with hx | hx
        · exact e3 x hx
        · exact i1 x hx
      · rw [e2, i2]
      · rw [e1, i3]; simp only [List.flatMap_cons]

theorem utf8Decode_idle_char (b : Nat) (c : Char) (st : Utf8State) (rest : List Nat)
    (h : utf8Lead b = (some c, st)) :
    utf8Decode Utf8State.idle (b :: rest) = c :: utf8Decode st rest := by
  rw [utf8Decode]
  simp [Utf8State.idle, h]

theorem utf8Decode_idle_lead (b : Nat) (st : Utf8State) (rest : List Nat)
    (h : utf8Lead b = (none, st)) :
    utf8Decode Utf8State.idle (b :: rest) = utf8Decode st rest := by
  rw [utf8Decode]
  simp [Utf8State.idle, h]

theorem utf8Decode_continuation (cp k lo hi b : Nat) (rest : List Nat)
    (hlo : lo ≤ b) (hhi : b ≤ hi) :
    utf8Decode { codePoint := cp, bytesNeeded := k + 2, lowerBoundary := lo,
                 upperBoundary := hi } (b :: rest)
      = utf8Decode { codePoint := cp * 0x40 + b % 0x40, bytesNeeded := k + 1,
                     lowerBoundary := 0x80, upperBoundary := 0xBF } rest := by
  rw [utf8Decode]
  have h1 : ¬ (b < lo ∨ hi < b) := by omega
  simp [h1]

theorem utf8Decode_last (cp lo hi b : Nat) (rest : List Nat)
    (hlo : lo ≤ b) (hhi : b ≤ hi) :
    utf8Decode { codePoint := cp, bytesNeeded := 1, lowerBoundary := lo,
                 upperBoundary := hi } (b :: rest)
      = Char.ofNat (cp * 0x40 + b % 0x40) :: utf8Decode Utf8State.idle rest := by
  rw [utf8Decode]
  have h1 : ¬ (b < lo ∨ hi < b) := by omega
  simp [h1]

/-- The UTF-8 decoder reads the octets of a character back as that character. -/
theorem utf8Decode_utf8Octets (c : Char) (rest : List Nat) :
    utf8Decode Utf8State.idle (utf8Octets c.toNat ++ rest)
      = c :: utf8Decode Utf8State.idle rest := by
  have hs := char_scalar c
  have hc : Char.ofNat c.toNat = c := Char.ofNat_toNat c
  generalize c.toNat = n at hs hc
  unfold utf8Octets
  split
  · rename_i h1
    have hl : utf8Lead n = (some (Char.ofNat n), Utf8State.idle) := by
      simp only [utf8Lead]; rw [if_pos (by omega)]
    simp only [List.singleton_append]
    rw [utf8Decode_idle_char _ _ _ _ hl, hc]
  · split
    · rename_i h1 h2
      have hl : utf8Lead (0xC0 + n / 0x40)
          = (none, { codePoint := (0xC0 + n / 0x40) % 0x20, bytesNeeded := 1,
                     lowerBoundary := 0x80, upperBoundary := 0xBF }) := by
        simp only [utf8Lead]
        rw [if_neg (by omega), if_pos (by omega)]
      simp only [List.cons_append, List.nil_append]
      rw [utf8Decode_idle_lead _ _ _ hl, utf8Decode_last _ _ _ _ _ (by omega) (by omega)]
      have : (0xC0 + n / 0x40) % 0x20 * 0x40 + (0x80 + n % 0x40) % 0x40 = n := by omega
      rw [this, hc]
    · split
      · rename_i h1 h2 h3
        have hl : utf8Lead (0xE0 + n / 0x1000)
            = (none, { codePoint := (0xE0 + n / 0x1000) % 0x10, bytesNeeded := 0 + 2,
                       lowerBoundary := if 0xE0 + n / 0x1000 = 0xE0 then 0xA0 else 0x80,
                       upperBoundary := if 0xE0 + n / 0x1000 = 0xED then 0x9F else 0xBF }) := by
          simp only [utf8Lead]
          rw [if_neg (by omega), if_neg (by omega), if_pos (by omega)]
        simp only [List.cons_append, List.nil_append]
        rw [utf8Decode_idle_lead _ _ _ hl,
          utf8Decode_continuation _ _ _ _ _ _ (by split <;> omega) (by split <;> omega),
          utf8Decode_last _ _ _ _ _ (by omega) (by omega)]
        have : ((0xE0 + n / 0x1000) % 0x10 * 0x40 + (0x80 + n / 0x40 % 0x40) % 0x40) * 0x40
            + (0x80 + n % 0x40) % 0x40 = n := by omega
        rw [this, hc]
      · rename_i h1 h2 h3
        have hl : utf8Lead (0xF0 + n / 0x40000)
            = (none, { codePoint := (0xF0 + n / 0x40000) % 0x08, bytesNeeded := 1 + 2,
                       lowerBoundary := if 0xF0 + n / 0x40000 = 0xF0 then 0x90 else 0x80,
                       upperBoundary := if 0xF0 + n / 0x40000 = 0xF4 then 0x8F else 0xBF }) := by
          simp only [utf8Lead]
          rw [if_neg (by omega), if_neg (by omega), if_neg (by omega), if_pos (by omega)]
        simp only [List.cons_append, List.nil_append]
        rw [utf8Decode_idle_lead _ _ _ hl,
          utf8Decode_continuation _ _ _ _ _ _ (by split <;> omega) (by split <;> omega),
          utf8Decode_continuation _ _ _ _ _ _ (by omega) (by omega),
          utf8Decode_last _ _ _ _ _ (by omega) (by omega)]
        have : (((0xF0 + n / 0x40000) % 0x08 * 0x40 + (0x80 + n / 0x1000 % 0x40) % 0x40) * 0x40
            + (0x80 + n / 0x40 % 0x40) % 0x40) * 0x40 + (0x80 + n % 0x40) % 0x40 = n := by omega
        rw [this, hc]

theorem utf8Decode_flatMap_utf8Octets (cs : List Char) :
    utf8Decode Utf8State.idle (cs.flatMap (fun c => utf8Octets c.toNat)) = cs := by
  induction cs with
  | nil => rfl
  | cons c cs ih => simp only [List.flatMap_cons, utf8Decode_utf8Octets, ih]

theorem splitOn_of_not_mem (sep : Nat) (l : List Nat) (h : sep ∉ l) : splitOn sep l = [l] := by
  induction l with
  | nil => rfl
  | cons b bs ih =>
    have hb : b ≠ sep := fun e => h (e ▸ List.mem_cons_self _ _)
    have := ih (fun hm => h (List.mem_cons_of_mem _ hm))
    simp [splitOn, hb, this]

theorem map_plusToSpace_of_not_mem (l : List Nat) (h : 0x2B ∉ l) : l.map plusToSpace = l := by
  induction l with
  | nil => rfl
  | cons b bs ih =>
    have hb : b ≠ 0x2B := fun e => h (e ▸ List.mem_cons_self _ _)
    simp [plusToSpace, hb, ih (fun hm => h (List.mem_cons_of_mem _ hm))]

/-- The body `reason=` followed by the encoded reason parses to the single
field `reason` holding the reason. -/
theorem parseUrlencoded_body (v : String) :
    parseUrlencoded (js "reason=" ++ js (percentEncoding v)) = [("reason", v)] := by
  obtain ⟨h1, -, h3⟩ := encoded_spec v.toList
  have hjs : js (percentEncoding v) = utf16 (v.toList.flatMap percentEncodeChar) := rfl
  rw [hjs]
  generalize utf16 (v.toList.flatMap percentEncodeChar) = e at h1 h3
  have hreason : js "reason=" = [0x72, 0x65, 0x61, 0x73, 0x6F, 0x6E, 0x3D] := by decide
  have hamp : 0x26 ∉ js "reason=" ++ e := by
    rw [hreason]
    intro hm
    rcases List.mem_append.mp hm with hm | hm
    · revert hm; decide
    · exact (h1 _ hm).2.1 rfl
  have hplus : 0x2B ∉ e := fun hm => (h1 _ hm).2.2.2 rfl
  have hsplit : splitNameValue (js "reason=" ++ e) = ([0x72, 0x65, 0x61, 0x73, 0x6F, 0x6E], e) := by
    rw [hreason]
    simp [splitNameValue]
  have hname : decodeComponent [0x72, 0x65, 0x61, 0x73, 0x6F, 0x6E] = "reason" := by decide
  have hvalue : decodeComponent e = v := by
    simp only [decodeComponent]
    rw [map_plusToSpace_of_not_mem e hplus, h3, utf8Decode_flatMap_utf8Octets]
    rfl
  have hne : (js "reason=" ++ e).isEmpty = false := by
    rw [hreason]; rfl
  simp only [parseUrlencoded, splitOn_of_not_mem _ _ hamp, List.filter_cons, hne, Bool.not_false,
    if_true, List.filter_nil, List.map_cons, List.map_nil, hsplit, hname, hvalue]

/-! ## Submitting a reason -/

/-- The request `sendRejectRequest` hands to `fetch` for a well-formed reason. -/
theorem click_rejectSubmit_wellFormed (s : Page) (commentId : JSValue) (rejectUrl : JSString)
    (v : String) (hopen : s.onclick = some (commentId, rejectUrl))
    (hvalue : s.reasonValue = js v) (hvalid : trim (js v) ≠ []) :
    click Target.rejectSubmit s
      = { s with
          pending := s.pending + 1
          log := s.log ++ [Effect.fetch
            { url := rejectUrl
              method := "POST"
              headers := [("Content-Type", js "application/x-www-form-urlencoded"),
                          ("X-CSRFToken", s.csrfmiddlewaretoken)]
              body := js "reason=" ++ js (percentEncoding v) }] } := by
  have henc : encodeURIComponent (js v) = .ok (js (percentEncoding v)) :=
    encodeURIComponent_utf16 v.toList
  simp [click, hopen, rejectSubmitOnclick, hvalue, hvalid, sendRejectRequest, henc,
    windowOnclick]

/-- C2, as stated, fails: the text-field value made of the single code unit
`0xD800` (an unpaired surrogate) has a non-empty trim, yet the submit click
issues no request, because `encodeURIComponent` throws before `fetch` is
called. -/
theorem submit_unpaired_surrogate_posts_nothing :
    trim [0xD800] ≠ []
      ∧ (click Target.rejectSubmit
          { showRejectModal (JSValue.number 42) (js "/reject/42") (initial (js "tok")) with
            reasonValue := [0xD800] }).log
        = [Effect.uncaught JSError.URIError]
      ∧ requests (click Target.rejectSubmit
          { showRejectModal (JSValue.number 42) (js "/reject/42") (initial (js "tok")) with
            reasonValue := [0xD800] }).log = [] := by
  decide

/-- C2, amended. After `showRejectModal commentId rejectUrl`, one submit click with
a well-formed text-field value `v` whose trim is non-empty, on a page whose
`csrfmiddlewaretoken` field holds `t` at the click, logs exactly one effect:
a request with method POST, URL `rejectUrl` and exactly the headers
`Content-Type: application/x-www-form-urlencoded` and `X-CSRFToken: t`; no
alert is raised. The same holds when the dialog was opened on a page with any
other token and the field holds `t` only at the click. -/
theorem submit_wellFormed_reason_posts_once (s : Page) (commentId : JSValue)
    (rejectUrl t : JSString) (v : String)
    (hopen : s.onclick = some (commentId, rejectUrl))
    (htoken : s.csrfmiddlewaretoken = t)
    (hvalue : s.reasonValue = js v) (hvalid : trim (js v) ≠ []) :
    (∃ body, (click Target.rejectSubmit s).log = s.log ++ [Effect.fetch
        { url := rejectUrl
          method := "POST"
          headers := [("Content-Type", js "application/x-www-form-urlencoded"),
                      ("X-CSRFToken", t)]
          body := body }])
      ∧ alerts (click Target.rejectSubmit s).log = alerts s.log
      ∧ (∀ s0 : Page, ∃ body,
          (click Target.rejectSubmit
            { showRejectModal commentId rejectUrl s0 with
              csrfmiddlewaretoken := t, reasonValue := js v }).log
          = s0.log ++ [Effect.fetch
            { url := rejectUrl
              method := "POST"
              headers := [("Content-Type", js "application/x-www-form-urlencoded"),
                          ("X-CSRFToken", t)]
              body := body }]) := by
  subst htoken
  refine ⟨?_, ?_, ?_⟩
  · rw [click_rejectSubmit_wellFormed s commentId rejectUrl v hopen hvalue hvalid]
    exact ⟨_, rfl⟩
  · rw [click_rejectSubmit_wellFormed s commentId rejectUrl v hopen hvalue hvalid]
    simp [alerts]
  · intro s0
    rw [click_rejectSubmit_wellFormed _ commentId rejectUrl v rfl rfl hvalid]
    exact ⟨_, rfl⟩

/-- C2 amended, at a dialog opened while the token was `old`, submitted with
the reason `spam` after the token became `new`. -/
theorem submit_wellFormed_reason_posts_once_witness :
    ∃ body, (click Target.rejectSubmit
        { showRejectModal (JSValue.number 42) (js "/reject/42") (initial (js "old")) with
          csrfmiddlewaretoken := js "new", reasonValue := js "spam" }).log
      = [] ++ [Effect.fetch
        { url := js "/reject/42"
          method := "POST"
          headers := [("Content-Type", js "application/x-www-form-urlencoded"),
                      ("X-CSRFToken", js "new")]
          body := body }] :=
  (submit_wellFormed_reason_posts_once
    { showRejectModal (JSValue.number 42) (js "/reject/42") (initial (js "old")) with
      csrfmiddlewaretoken := js "new", reasonValue := js "spam" }
    (JSValue.number 42) (js "/reject/42") (js "new") "spam" rfl rfl rfl (by decide)).1

/-- C3. For a well-formed reason `v` with non-empty trim the submit click issues
the request whose body is `reason=` followed by the percent-encoding of `v`
(kept characters as they are, every other character as `%HH` in uppercase
hexadecimal for each byte of its UTF-8 encoding); `spam content` is encoded
as `spam%20content`, the space as `%20`. -/
theorem request_body_percent_encoded (s : Page) (commentId : JSValue) (rejectUrl : JSString)
    (v : String) (hopen : s.onclick = some (commentId, rejectUrl))
    (hvalue : s.reasonValue = js v) (hvalid : trim (js v) ≠ []) :
    (∃ r, (click Target.rejectSubmit s).log = s.log ++ [Effect.fetch r]
        ∧ r.body = js "reason=" ++ js (percentEncoding v))
      ∧ encodeURIComponent (js v) = .ok (js (percentEncoding v))
      ∧ encodeURIComponent (js "spam content") = .ok (js "spam%20content")
      ∧ percentEncoding "spam content" = "spam%20content" := by
  rw [click_rejectSubmit_wellFormed s commentId rejectUrl v hopen hvalue hvalid]
  exact ⟨⟨_, rfl, rfl⟩, encodeURIComponent_utf16 v.toList, rfl, by decide⟩

/-- C3 at the example of the specification: the reason `spam content` sent to
`/reject/42` has the body `reason=spam%20content`. -/
theorem request_body_percent_encoded_witness :
    ∃ r, (click Target.rejectSubmit
        { showRejectModal (JSValue.number 42) (js "/reject/42") (initial (js "tok")) with
          reasonValue := js "spam content" }).log = [] ++ [Effect.fetch r]
      ∧ r.body = js "reason=spam%20content" :=
  (request_body_percent_encoded
    { showRejectModal (JSValue.number 42) (js "/reject/42") (initial (js "tok")) with
      reasonValue := js "spam content" }
    (JSValue.number 42) (js "/reject/42") "spam content" rfl rfl (by decide)).1

/-! ## The body on the receiving end -/

/-- C8, as stated, fails: the reason made of the letter `a` and the unpaired
surrogate `0xDC00` has a non-empty trim, yet `encodeURIComponent` throws on it
and the submit click issues no request, so there is no body to decode. -/
theorem unpaired_surrogate_has_no_body :
    trim [0x61, 0xDC00] ≠ []
      ∧ encodeURIComponent [0x61, 0xDC00] = .error JSError.URIError
      ∧ requests (click Target.rejectSubmit
          { showRejectModal (JSValue.number 42) (js "/reject/42") (initial (js "tok")) with
            reasonValue := [0x61, 0xDC00] }).log = [] :=
  ⟨by decide, rfl, by decide⟩

/-- C8, amended. For a well-formed reason `v` with non-empty trim the submit click
issues one request whose body is `reason=` followed by an encoded part that
is ASCII, contains none of `&`, `=` and `+`, and in which every `%` starts
an escape `%HH`; decoded as `application/x-www-form-urlencoded` the body has
exactly one field, named `reason`, whose value is `v` as typed, untrimmed. -/
theorem body_decodes_to_reason (s : Page) (commentId : JSValue) (rejectUrl : JSString)
    (v : String) (hopen : s.onclick = some (commentId, rejectUrl))
    (hvalue : s.reasonValue = js v) (hvalid : trim (js v) ≠ []) :
    ∃ r encoded, (click Target.rejectSubmit s).log = s.log ++ [Effect.fetch r]
      ∧ r.body = js "reason=" ++ encoded
      ∧ (∀ x ∈ encoded, x < 0x80 ∧ x ≠ 0x26 ∧ x ≠ 0x3D ∧ x ≠ 0x2B)
      ∧ validEscapes encoded = true
      ∧ parseUrlencoded r.body = [("reason", v)] := by
  rw [click_rejectSubmit_wellFormed s commentId rejectUrl v hopen hvalue hvalid]
  obtain ⟨h1, h2, -⟩ := encoded_spec v.toList
  exact ⟨_, js (percentEncoding v), rfl, rfl, h1, h2, parseUrlencoded_body v⟩

/-- C8 amended, at a reason with a leading and a trailing space and the
characters `&`, `=`, `+` and `%` inside. -/
theorem body_decodes_to_reason_witness :
    ∃ r encoded, (click Target.rejectSubmit
        { showRejectModal (JSValue.number 42) (js "/reject/42") (initial (js "tok")) with
          reasonValue := js " a&b=c+d%41 " }).log = [] ++ [Effect.fetch r]
      ∧ r.body = js "reason=" ++ encoded
      ∧ (∀ x ∈ encoded, x < 0x80 ∧ x ≠ 0x26 ∧ x ≠ 0x3D ∧ x ≠ 0x2B)
      ∧ validEscapes encoded = true
      ∧ parseUrlencoded r.body = [("reason", " a&b=c+d%41 ")] :=
  body_decodes_to_reason
    { showRejectModal (JSValue.number 42) (js "/reject/42") (initial (js "tok")) with
      reasonValue := js " a&b=c+d%41 " }
    (JSValue.number 42) (js "/reject/42") " a&b=c+d%41 " rfl rfl (by decide)

/-! ## Reopening the dialog -/

theorem step_isOpenCloseOrInput (s : Page) (e : Event) (h : e.isOpenCloseOrInput = true) :
    (step s e).log = s.log ∧ (step s e).csrfmiddlewaretoken = s.csrfmiddlewaretoken
      ∧ (step s e).pending = s.pending := by
  cases e with
  | showRejectModal c u => simp [step, showRejectModal]
  | input x => simp [step]
  | setToken x => simp [Event.isOpenCloseOrInput] at h
  | settle x => simp [Event.isOpenCloseOrInput] at h
  | click x =>
    cases x with
    | modal => simp [step, click, windowOnclick]
    | rejectSubmit => simp [Event.isOpenCloseOrInput] at h
    | other => simp [Event.isOpenCloseOrInput] at h

theorem run_isOpenCloseOrInput (es : List Event) :
    ∀ s : Page, (∀ e ∈ es, e.isOpenCloseOrInput = true) →
      (run s es).log = s.log ∧ (run s es).csrfmiddlewaretoken = s.csrfmiddlewaretoken
        ∧ (run s es).pending = s.pending := by
  induction es with
  | nil => intro s _; simp [run]
  | cons e es ih =>
    intro s h
    have h1 := step_isOpenCloseOrInput s e (h e (List.mem_cons_self _ _))
    have h2 := ih (step s e) (fun x hx => h x (List.mem_cons_of_mem _ hx))
    simp only [run, List.foldl_cons] at h2 ⊢
    exact ⟨h2.1.trans h1.1, h2.2.1.trans h1.2.1, h2.2.2.trans h1.2.2⟩

theorem run_append (s : Page) (es es2 : List Event) :
    run s (es ++ es2) = run (run s es) es2 := by
  simp [run, List.foldl_append]

/-- C9, as stated, fails: after two opens with an outside click in between, a
submit click with the reason `0xD83D` (an unpaired surrogate, whose trim is
non-empty) issues no request at all. -/
theorem reopen_unpaired_surrogate_posts_nothing :
    trim [0xD83D] ≠ []
      ∧ requests (run (initial (js "tok"))
          [Event.showRejectModal (JSValue.number 1) (js "/reject/1"),
           Event.click Target.modal,
           Event.showRejectModal (JSValue.number 2) (js "/reject/2"),
           Event.input [0xD83D],
           Event.click Target.rejectSubmit]).log = [] := by
  decide

/-- C9, amended. After any sequence of opens, outside clicks and edits of the text
field that ends with `showRejectModal commentId rejectUrl`, one submit click
with a well-formed reason whose trim is non-empty leaves exactly one effect
in the log of the whole run: one request, to `rejectUrl`, the URL of the
most recent open. -/
theorem submit_goes_to_last_open (s : Page) (before : List Event) (commentId : JSValue)
    (rejectUrl : JSString) (v : String)
    (hbefore : ∀ e ∈ before, e.isOpenCloseOrInput = true) (hvalid : trim (js v) ≠ []) :
    (run s (before ++ [Event.showRejectModal commentId rejectUrl, Event.input (js v),
        Event.click Target.rejectSubmit])).log
      = s.log ++ [Effect.fetch
          { url := rejectUrl
            method := "POST"
            headers := [("Content-Type", js "application/x-www-form-urlencoded"),
                        ("X-CSRFToken", s.csrfmiddlewaretoken)]
            body := js "reason=" ++ js (percentEncoding v) }] := by
  obtain ⟨hlog, htok, _⟩ := run_isOpenCloseOrInput before s hbefore
  rw [run_append]
  generalize run s before = s1 at hlog htok
  simp only [run, List.foldl_cons, List.foldl_nil, step]
  rw [click_rejectSubmit_wellFormed _ commentId rejectUrl v rfl rfl hvalid]
  simp [showRejectModal, hlog, htok]

/-- C9 amended, at two opens with an outside click in between: the request goes
to `/reject/2`. -/
theorem submit_goes_to_last_open_witness :
    (run (initial (js "tok"))
      ([Event.showRejectModal (JSValue.number 1) (js "/reject/1"), Event.click Target.modal]
        ++ [Event.showRejectModal (JSValue.number 2) (js "/reject/2"), Event.input (js "spam"),
            Event.click Target.rejectSubmit])).log
      = (initial (js "tok")).log ++ [Effect.fetch
          { url := js "/reject/2"
            method := "POST"
            headers := [("Content-Type", js "application/x-www-form-urlencoded"),
                        ("X-CSRFToken", (initial (js "tok")).csrfmiddlewaretoken)]
            body := js "reason=" ++ js (percentEncoding "spam") }] :=
  submit_goes_to_last_open (initial (js "tok"))
    [Event.showRejectModal (JSValue.number 1) (js "/reject/1"), Event.click Target.modal]
    (JSValue.number 2) (js "/reject/2") "spam" (by decide) (by decide)

end CustomModal
